import Mathlib

/-
Shallow embedding of the TransLens core (source: gguf_model.py).

The Python source is an async FastAPI application.  The embedding makes all
effects explicit:

* the persistent SQLite tables (translation_cache, word_frequency,
  word_memory) become lists of rows in an explicit state;
* the various time.time() readings become explicit integer parameters
  (one per reading site, since the readings are distinct);
* the external collaborators are parameters: the jieba tagger is a function
  from the sentence to tagged (word, flag) pairs, the md5 hexdigest from
  hashlib is an arbitrary digest function (its internals are outside the
  repository), random.choices is an index oracle, and the HTTP reply of the
  remote provider together with the request.is_disconnected polls are data;
* raised Python exceptions become an Except value carrying the state at the
  raise point (SQLite commits in the source happen eagerly, so mutations
  survive an exception).
-/

/-- Python exceptions that cross function boundaries in the source:
fastapi.HTTPException (a subclass of Exception), the custom
ClientDisconnectedError, and the provider-call failures (httpx.RequestError,
KeyError / IndexError from response parsing, ValueError from the length
check), all of which reach the orchestrator as plain exceptions carrying a
message. -/
inductive PyExc where
  | http (status : Nat) (detail : String)
  | clientDisconnected
  | providerError (msg : String)
deriving DecidableEq

/-- Python str(e) for the exceptions above.  For HTTPException, Starlette
renders status and detail; ClientDisconnectedError has an empty message;
for the provider-call exceptions the message is the msg payload. -/
def excStr : PyExc → String
  | PyExc.http status detail => String.append (Nat.repr status) (String.append ": " detail)
  | PyExc.clientDisconnected => ""
  | PyExc.providerError msg => msg

/-- Row of the translation_cache table:
key TEXT PRIMARY KEY, sentence, target_word, translation, timestamp. -/
structure CacheEntry where
  key : String
  sentence : String
  target_word : String
  translation : String
  timestamp : Int
deriving DecidableEq

/-- The string digested by TranslationCache._generate_key: the f-string
interpolation producing sentence + "|" + target_word (UTF-8 encoded before
hashing; the encoding is injective so it is dropped here). -/
def keyMessage (sentence target_word : String) : String :=
  String.append sentence (String.append "|" target_word)

/-- TranslationCache._generate_key.  hashlib.md5(...).hexdigest() is Python
standard library code, external to this repository, so the digest is an
explicit function parameter; the repository-owned part is that the digest is
applied to keyMessage. -/
def generate_key (hash : String → String) (sentence target_word : String) : String :=
  hash (keyMessage sentence target_word)

/-- TranslationCache.get: SELECT translation WHERE key = ?, fetchone,
returning the translation of the first matching row or None. -/
def cache_get (hash : String → String) (sentence target_word : String)
    (c : List CacheEntry) : Option String :=
  ((c.find? (fun e => decide (e.key = generate_key hash sentence target_word))).map
    (fun e => e.translation))

/-- TranslationCache.set: INSERT OR REPLACE keyed on the PRIMARY KEY
column key (replace the existing row for the key, or insert a new row). -/
def cache_set (hash : String → String) (sentence target_word translation : String)
    (timestamp : Int) (c : List CacheEntry) : List CacheEntry :=
  let k := generate_key hash sentence target_word
  if c.any (fun e => decide (e.key = k)) then
    c.map (fun e => if e.key = k then
      { key := k, sentence := sentence, target_word := target_word,
        translation := translation, timestamp := timestamp }
      else e)
  else
    c ++ [{ key := k, sentence := sentence, target_word := target_word,
            translation := translation, timestamp := timestamp }]

/-- TranslationCache.get_word_frequency: SELECT frequency WHERE word = ?;
0 when no row exists. -/
def get_word_frequency (word : String) (freq : List (String × Nat)) : Nat :=
  (((freq.find? (fun p => decide (p.1 = word))).map (fun p => p.2)).getD 0)

/-- TranslationCache.increment_word_frequency: UPDATE frequency = frequency+1
WHERE word = ?; when rowcount = 0, INSERT (word, 1). -/
def increment_word_frequency (word : String) (freq : List (String × Nat)) :
    List (String × Nat) :=
  if freq.any (fun p => decide (p.1 = word)) then
    freq.map (fun p => if p.1 = word then (p.1, p.2 + 1) else p)
  else
    freq ++ [(word, 1)]

/-- TranslationCache.weighted_choice: None on the empty list, the unique
element of a singleton, and otherwise random.choices with strictly positive
weights 1/(freq+1), which always returns an element of the list.  The random
draw is modelled by the index oracle pick reduced modulo the length. -/
def weighted_choice (pick : Nat) (words : List String) : Option String :=
  match words with
  | [] => none
  | [w] => some w
  | w :: ws => some ((w :: ws).getD (pick % (w :: ws).length) w)

/-- Row of the word_memory table:
word TEXT PRIMARY KEY, level INTEGER, suppress_until INTEGER (unix ts). -/
structure WMRow where
  word : String
  level : Nat
  suppress_until : Int
deriving DecidableEq

/-- The SELECT issued by TranslationCache.get_eligible_words: rows of
word_memory whose word is among the given words and whose suppress_until is
strictly greater than the current time; the Python code collects the word
column into a set used only through membership. -/
def wm_suppressed_query (words : List String) (now : Int) (memory : List WMRow) :
    List String :=
  (memory.filter (fun r => decide (r.word ∈ words) && decide (now < r.suppress_until))).map
    (fun r => r.word)

/-- TranslationCache.get_eligible_words: early-return [] on empty input
(before any database access); otherwise keep, in order, the input words that
are not in the suppressed set. -/
def get_eligible_words (now : Int) (memory : List WMRow) (words : List String) :
    List String :=
  if words = [] then []
  else
    let suppressed := wm_suppressed_query words now memory
    words.filter (fun w => decide (¬ w ∈ suppressed))

/-- Number of database queries issued by get_eligible_words, read off the
source control flow: the empty-input early return happens before the query
is built or executed. -/
def get_eligible_words_queries (words : List String) : Nat :=
  if words = [] then 0 else 1

/-- Stored level of a word in word_memory, 0 when no row exists
(mirrors: row[level] if row else 0 in mark_word_as_easy). -/
def storedLevel (word : String) (memory : List WMRow) : Nat :=
  (((memory.find? (fun r => decide (r.word = word))).map (fun r => r.level)).getD 0)

/-- Stored suppress_until of a word in word_memory, when a row exists. -/
def storedSuppressUntil (word : String) (memory : List WMRow) : Option Int :=
  ((memory.find? (fun r => decide (r.word = word))).map (fun r => r.suppress_until))

/-- INSERT OR REPLACE INTO word_memory keyed on the PRIMARY KEY column
word. -/
def wm_upsert (word : String) (level : Nat) (suppress_until : Int)
    (memory : List WMRow) : List WMRow :=
  if memory.any (fun r => decide (r.word = word)) then
    memory.map (fun r => if r.word = word then
      { word := word, level := level, suppress_until := suppress_until } else r)
  else
    memory ++ [{ word := word, level := level, suppress_until := suppress_until }]

/-- Body of the mark_word_as_easy endpoint after input validation: read the
current level (0 if absent), new_level = level+1, days = new_level ** 2,
suppress_until = now + days * 24 * 60 * 60, upsert, and return
(new_level, days, suppress_until). -/
def mark_easy_core (word : String) (now : Int) (memory : List WMRow) :
    (Nat × Nat × Int) × List WMRow :=
  let current_level := storedLevel word memory
  let new_level := current_level + 1
  let days_to_suppress := new_level ^ 2
  let suppress_until := now + (days_to_suppress : Int) * (24 * 60 * 60)
  ((new_level, days_to_suppress, suppress_until),
   wm_upsert word new_level suppress_until memory)

/-- Outcome of the mark_easy endpoint: the success JSON body
(status, word, new_level, suppress_days) or an HTTP error response. -/
inductive MarkEasyOutcome where
  | success (word : String) (new_level : Nat) (suppress_days : Nat)
  | httpError (status : Nat) (detail : String)
deriving DecidableEq

/-- mark_word_as_easy endpoint.  The missing/empty word field raises
HTTPException(400, ...), but the blanket except Exception of the endpoint
catches it (fastapi.HTTPException subclasses Exception) and re-raises
HTTPException(500, "服务器内部错误: " + str(e)), so that is what the caller
sees. -/
def mark_word_as_easy (wordField : Option String) (now : Int) (memory : List WMRow) :
    MarkEasyOutcome × List WMRow :=
  match wordField with
  | none =>
    (MarkEasyOutcome.httpError 500
      (String.append "服务器内部错误: "
        (excStr (PyExc.http 400 "JSON中必须包含 \x27word\x27 字段"))), memory)
  | some word =>
    if word = "" then
      (MarkEasyOutcome.httpError 500
        (String.append "服务器内部错误: "
          (excStr (PyExc.http 400 "JSON中必须包含 \x27word\x27 字段"))), memory)
    else
      let r := mark_easy_core word now memory
      (MarkEasyOutcome.success word r.1.1 r.1.2.1, r.2)

/-- Result of TranslationProvider._wait_for_rate_limit: normal return
(admission) or the raised ClientDisconnectedError (cancellation). -/
inductive RLResult where
  | granted
  | cancelled
deriving DecidableEq

/-- The pruning while-loop of _wait_for_rate_limit: popleft while the head
timestamp is strictly older than current_time - rate_limit_period. -/
def pruneTimestamps (now period : Int) (ts : List Int) : List Int :=
  ts.dropWhile (fun t => decide (t < now - period))

/-- The rate-limiter window in the sense of the specification (section 4.1):
the recorded timestamps lying within the trailing period, i.e. not strictly
older than now - period. -/
def liveWindow (now period : Int) (ts : List Int) : List Int :=
  ts.filter (fun t => !(decide (t < now - period)))

/-- TranslationProvider._wait_for_rate_limit.  count and period are the
configured rate_limit_count and rate_limit_period_seconds; now is the
time.time() reading taken under the lock; polls is the finite sequence of
request.is_disconnected() results the wait loop would observe before the
deadline end_time passes (cancellation occurs iff some poll is true);
appendTime is the time.time() reading taken at the final append.  The whole
body runs inside the rate_limit_lock critical section; the deque mutations
are the prune pops and (on admission only) the final append. -/
def wait_for_rate_limit (count period now : Int) (polls : List Bool)
    (appendTime : Int) (ts : List Int) : RLResult × List Int :=
  if count ≤ 0 then (RLResult.granted, ts)
  else
    if count ≤ ((pruneTimestamps now period ts).length : Int) then
      if 0 < (pruneTimestamps now period ts).headD 0 + period - now then
        if polls.any (fun b => b) then
          (RLResult.cancelled, pruneTimestamps now period ts)
        else (RLResult.granted, pruneTimestamps now period ts ++ [appendTime])
      else (RLResult.granted, pruneTimestamps now period ts ++ [appendTime])
    else (RLResult.granted, pruneTimestamps now period ts ++ [appendTime])

/-- Events of one _wait_for_rate_limit attempt, used to state where the
rate_limit_lock is held.  lockAcquire / lockRelease delimit the async-with
block (the lock is also released when the ClientDisconnectedError escapes
the block); pruneTs is one popleft; checkDisconnect is one
request.is_disconnected() poll; sleepHundredMs is one await
asyncio.sleep(0.1); appendTs is the final append. -/
inductive RLEvent where
  | lockAcquire
  | lockRelease
  | pruneTs (t : Int)
  | checkDisconnect (d : Bool)
  | sleepHundredMs
  | appendTs (t : Int)
  | raiseCancelled
deriving DecidableEq

/-- Event trace of _wait_for_rate_limit on the same inputs as
wait_for_rate_limit, read off the source line by line: everything between
entering and leaving the async with self.rate_limit_lock block, including
every asyncio.sleep(0.1) of the wait loop, happens between lockAcquire and
lockRelease. -/
def wait_for_rate_limit_trace (count period now : Int) (polls : List Bool)
    (appendTime : Int) (ts : List Int) : List RLEvent :=
  if count ≤ 0 then []
  else
    (RLEvent.lockAcquire ::
      ((ts.takeWhile (fun t => decide (t < now - period))).map RLEvent.pruneTs ++
       (if count ≤ ((ts.dropWhile (fun t => decide (t < now - period))).length : Int) then
          if 0 < (ts.dropWhile (fun t => decide (t < now - period))).headD 0 + period - now then
            ((polls.takeWhile (fun b => b = false)).flatMap
               (fun _ => [RLEvent.checkDisconnect false, RLEvent.sleepHundredMs])) ++
            (if polls.any (fun b => b) then
               [RLEvent.checkDisconnect true, RLEvent.raiseCancelled]
             else [RLEvent.appendTs appendTime])
          else [RLEvent.appendTs appendTime]
        else [RLEvent.appendTs appendTime]))) ++ [RLEvent.lockRelease]

/-- Lock events of the trace. -/
def isLockEvent : RLEvent → Bool
  | RLEvent.lockAcquire => true
  | RLEvent.lockRelease => true
  | _ => false

/-- Lock acquisition events of the trace. -/
def isLockAcquire : RLEvent → Bool
  | RLEvent.lockAcquire => true
  | _ => false

/-- One step of the lock-discipline scan: the first component records
whether some deque access, disconnect check or sleep has been seen while the
lock was NOT held; the second component tracks whether the lock is held. -/
def lockScanStep (acc : Bool × Bool) (e : RLEvent) : Bool × Bool :=
  match e with
  | RLEvent.lockAcquire => (acc.1, true)
  | RLEvent.lockRelease => (acc.1, false)
  | RLEvent.pruneTs _ => (acc.1 || !acc.2, acc.2)
  | RLEvent.appendTs _ => (acc.1 || !acc.2, acc.2)
  | RLEvent.checkDisconnect _ => (acc.1 || !acc.2, acc.2)
  | RLEvent.sleepHundredMs => (acc.1 || !acc.2, acc.2)
  | RLEvent.raiseCancelled => acc

/-- True when some deque access, disconnect check or sleep of the trace
happens while the lock is not held. -/
def eventsOutsideLock (tr : List RLEvent) : Bool :=
  (tr.foldl lockScanStep (false, false)).1

/-- One step of the sleeps-under-lock scan: the first component records
whether some sleep has been seen while the lock WAS held. -/
def sleepScanStep (acc : Bool × Bool) (e : RLEvent) : Bool × Bool :=
  match e with
  | RLEvent.lockAcquire => (acc.1, true)
  | RLEvent.lockRelease => (acc.1, false)
  | RLEvent.sleepHundredMs => (acc.1 || acc.2, acc.2)
  | _ => acc

/-- True when some asyncio.sleep(0.1) of the trace happens while the lock is
held. -/
def sleepsWhileLockHeld (tr : List RLEvent) : Bool :=
  (tr.foldl sleepScanStep (false, false)).1

/-- The provider HTTP reply as the orchestrator sees it: a transport-level
failure (httpx.RequestError or a non-success status from
raise_for_status), a response whose JSON lacks the
choices[0].message.content path (KeyError / IndexError from
_parse_response), or the extracted content text. -/
inductive ProviderReply where
  | networkError (msg : String)
  | malformed (msg : String)
  | content (text : String)
deriving DecidableEq

/-- TranslationProvider.translate: wait for the rate limiter (which may
raise ClientDisconnectedError), re-check request.is_disconnected() once
(disc2), perform the HTTP call and parse the reply, and reject extracted
text longer than 30 characters with ValueError("翻译结果过长:" + text).
All failures propagate to the caller; the deque state is threaded
through. -/
def provider_translate (count period now : Int) (polls : List Bool)
    (appendTime : Int) (disc2 : Bool) (reply : ProviderReply) (ts : List Int) :
    Except PyExc String × List Int :=
  match wait_for_rate_limit count period now polls appendTime ts with
  | (RLResult.cancelled, ts2) => (Except.error PyExc.clientDisconnected, ts2)
  | (RLResult.granted, ts2) =>
    if disc2 then (Except.error PyExc.clientDisconnected, ts2)
    else
      match reply with
      | ProviderReply.networkError msg => (Except.error (PyExc.providerError msg), ts2)
      | ProviderReply.malformed msg => (Except.error (PyExc.providerError msg), ts2)
      | ProviderReply.content text =>
        if 30 < text.length then
          (Except.error (PyExc.providerError (String.append "翻译结果过长:" text)), ts2)
        else
          (Except.ok text, ts2)

/-- The mutable state a /translate request touches: the three persistent
tables plus the in-memory rate-limiter deque of the provider. -/
structure AppState where
  cache : List CacheEntry
  freq : List (String × Nat)
  memory : List WMRow
  timestamps : List Int
deriving DecidableEq

/-- Per-request environment: the external collaborators and the readings of
the nondeterministic sources, fixed for one run.  Fields: hash is the md5
hexdigest function; tagger is jieba pseg.lcut returning (word, flag) pairs;
pick is the random.choices index oracle; nowElig, nowRL, appendTime and
cacheTs are the int(time.time()) / time.time() readings of
get_eligible_words, _wait_for_rate_limit, the final deque append and
cache.set respectively; count and period are the rate-limit configuration;
polls are the is_disconnected results seen by the wait loop; disc2 is the
is_disconnected re-check before the HTTP call; reply is the provider HTTP
reply. -/
structure RunEnv where
  hash : String → String
  tagger : String → List (String × String)
  pick : Nat
  nowElig : Int
  nowRL : Int
  appendTime : Int
  cacheTs : Int
  count : Int
  period : Int
  polls : List Bool
  disc2 : Bool
  reply : ProviderReply

/-- Outcome of the /translate endpoint: a JSON success body, an HTTP error
response, or no response at all (the bare return of the
ClientDisconnectedError handler). -/
inductive TranslateOutcome where
  | response (target_word translation : String) (from_cache : Bool)
  | httpError (status : Nat) (detail : String)
  | noResponse
deriving DecidableEq

/-- Python str.startswith, evaluated on the underlying character lists
(String.startsWith itself is defined by well-founded recursion over byte
positions, which the kernel does not unfold during evaluation). -/
def pyStartsWith (s pre : String) : Bool :=
  List.isPrefixOf pre.data s.data

/-- Candidate extraction of the /translate endpoint: words of the tagger
output whose flag starts with n or v, deduplicated (the source uses
list(set(...)), whose order is unspecified; first-occurrence order is fixed
here, and the order only feeds the selection oracle). -/
def candidatesOf (tagger : String → List (String × String)) (sentence : String) :
    List String :=
  ((((tagger sentence).filter
      (fun p => pyStartsWith p.2 "n" || pyStartsWith p.2 "v")).map
      (fun p => p.1)).eraseDups)

/-- Python truthiness of the fetched cache value in "if cached:": None and
the empty string are falsy. -/
def cachedTruthy : Option String → Bool
  | none => false
  | some t => !(decide (t = ""))

/-- Replace the freq table of a state. -/
def setFreq (st : AppState) (f : List (String × Nat)) : AppState :=
  { cache := st.cache, freq := f, memory := st.memory, timestamps := st.timestamps }

/-- State after the provider call: new deque; other tables unchanged. -/
def setTimestamps (st : AppState) (ts : List Int) : AppState :=
  { cache := st.cache, freq := st.freq, memory := st.memory, timestamps := ts }

/-- State after a cache write and the provider call. -/
def setCacheTimestamps (st : AppState) (c : List CacheEntry) (ts : List Int) : AppState :=
  { cache := c, freq := st.freq, memory := st.memory, timestamps := ts }

/-- Tail of the /translate endpoint after a target word has been selected
and its frequency incremented: cache lookup ("if cached:" conflates an
empty stored translation with absence), then on a miss the provider call
and the cache write. -/
def translateSelected (env : RunEnv) (sentence target_word : String)
    (st1 : AppState) : Except (PyExc × AppState) (TranslateOutcome × AppState) :=
  let cached := cache_get env.hash sentence target_word st1.cache
  if cachedTruthy cached then
    Except.ok (TranslateOutcome.response target_word (cached.getD "") true, st1)
  else
    match provider_translate env.count env.period env.nowRL env.polls env.appendTime
        env.disc2 env.reply st1.timestamps with
    | (Except.error e, ts2) => Except.error (e, setTimestamps st1 ts2)
    | (Except.ok translated_content, ts2) =>
      Except.ok (TranslateOutcome.response target_word translated_content false,
        setCacheTimestamps st1
          (cache_set env.hash sentence target_word translated_content env.cacheTs st1.cache)
          ts2)

/-- Body of the try block of the /translate endpoint.  sentenceField is
data.get("sentence") (None when the JSON lacks the field); Python falsiness
makes the empty string equivalent to a missing field. -/
def translate_word_inner (env : RunEnv) (sentenceField : Option String)
    (st : AppState) : Except (PyExc × AppState) (TranslateOutcome × AppState) :=
  match sentenceField with
  | none => Except.error (PyExc.http 400 "JSON中必须包含 \x27sentence\x27 字段", st)
  | some context_sentence =>
    if context_sentence = "" then
      Except.error (PyExc.http 400 "JSON中必须包含 \x27sentence\x27 字段", st)
    else
      let candidate_words := candidatesOf env.tagger context_sentence
      if candidate_words = [] then
        Except.error (PyExc.http 404 "句子中未找到可翻译的名词或动词", st)
      else
        let eligible_words := get_eligible_words env.nowElig st.memory candidate_words
        if eligible_words = [] then
          Except.error (PyExc.http 404 "所有候选词均被标记为简单词", st)
        else
          match weighted_choice env.pick eligible_words with
          | none => Except.error (PyExc.http 404 "无法从合格词中选择目标词", st)
          | some target_word =>
            if target_word = "" then
              Except.error (PyExc.http 404 "无法从合格词中选择目标词", st)
            else
              translateSelected env context_sentence target_word
                (setFreq st (increment_word_frequency target_word st.freq))

/-- The except clauses of the /translate endpoint: ClientDisconnectedError
becomes a bare return (no response); every other exception - including the
HTTPExceptions raised inside the try block, since fastapi.HTTPException
subclasses Exception - is caught by the blanket except Exception and
re-raised as HTTPException(502, "处理翻译请求时发生错误: " + str(e)). -/
def handle_translate_exc
    (r : Except (PyExc × AppState) (TranslateOutcome × AppState)) :
    TranslateOutcome × AppState :=
  match r with
  | Except.ok out => out
  | Except.error (PyExc.clientDisconnected, st1) => (TranslateOutcome.noResponse, st1)
  | Except.error (e, st1) =>
    (TranslateOutcome.httpError 502
      (String.append "处理翻译请求时发生错误: " (excStr e)), st1)

/-- The /translate endpoint (translate_word in the source). -/
def translate_word (env : RunEnv) (sentenceField : Option String) (st : AppState) :
    TranslateOutcome × AppState :=
  handle_translate_exc (translate_word_inner env sentenceField st)

/-! Helper lemmas about the association-list upserts. -/

theorem any_false_find_none {α : Type} (p : α → Bool) (l : List α)
    (h : l.any p = false) : l.find? p = none := by
  induction l with
  | nil => rfl
  | cons a t ih =>
    simp only [List.any_cons, Bool.or_eq_false_iff] at h
    rw [List.find?_cons_of_neg _ (by simp [h.1]), ih h.2]

theorem find_append_of_none {α : Type} (p : α → Bool) (l1 l2 : List α)
    (h : l1.find? p = none) : (l1 ++ l2).find? p = l2.find? p := by
  induction l1 with
  | nil => rfl
  | cons a t ih =>
    by_cases ha : p a = true
    · rw [List.find?_cons_of_pos _ ha] at h; exact absurd h (by simp)
    · have ha2 : p a = false := by simpa using ha
      rw [List.find?_cons_of_neg _ (by simp [ha2])] at h
      rw [List.cons_append, List.find?_cons_of_neg _ (by simp [ha2]), ih h]

theorem cache_find_replaced (k : String) (ent : CacheEntry) (hk : ent.key = k)
    (c : List CacheEntry) (h : c.any (fun e => decide (e.key = k)) = true) :
    (c.map (fun e => if e.key = k then ent else e)).find?
      (fun e => decide (e.key = k)) = some ent := by
  induction c with
  | nil => simp at h
  | cons e t ih =>
    by_cases he : e.key = k
    · simp only [List.map_cons, if_pos he]
      rw [List.find?_cons_of_pos _ (by simp [hk])]
    · simp only [List.any_cons, Bool.or_eq_true] at h
      have h2 : t.any (fun e => decide (e.key = k)) = true := by
        rcases h with h | h
        · exact absurd (of_decide_eq_true h) he
        · exact h
      simp only [List.map_cons, if_neg he]
      rw [List.find?_cons_of_neg _ (by simp [he]), ih h2]

theorem cache_get_cache_set (hash : String → String) (s w tr : String) (ts : Int)
    (c : List CacheEntry) :
    cache_get hash s w (cache_set hash s w tr ts c) = some tr := by
  unfold cache_get cache_set
  by_cases hany : c.any (fun e => decide (e.key = generate_key hash s w)) = true
  · rw [if_pos hany, cache_find_replaced (generate_key hash s w) _ rfl c hany]
    rfl
  · have hany2 : c.any (fun e => decide (e.key = generate_key hash s w)) = false := by
      simpa using hany
    rw [if_neg (by simp [hany2]),
      find_append_of_none _ _ _ (any_false_find_none _ _ hany2)]
    rw [List.find?_cons_of_pos _ (by simp)]
    rfl

theorem cache_countP_replaced (k : String) (ent : CacheEntry) (hk : ent.key = k)
    (c : List CacheEntry) :
    (c.map (fun e => if e.key = k then ent else e)).countP
      (fun e => decide (e.key = k)) = c.countP (fun e => decide (e.key = k)) := by
  induction c with
  | nil => rfl
  | cons e t ih =>
    by_cases he : e.key = k
    · rw [List.map_cons, if_pos he]
      simp [List.countP_cons, ih, hk, he]
    · simp only [List.map_cons, if_neg he, List.countP_cons, ih]

theorem any_false_countP_zero {α : Type} (p : α → Bool) (l : List α)
    (h : l.any p = false) : l.countP p = 0 := by
  induction l with
  | nil => rfl
  | cons a t ih =>
    simp only [List.any_cons, Bool.or_eq_false_iff] at h
    simp [List.countP_cons, h.1, ih h.2]

theorem any_true_countP_pos {α : Type} (p : α → Bool) (l : List α)
    (h : l.any p = true) : 0 < l.countP p := by
  induction l with
  | nil => simp at h
  | cons a t ih =>
    simp only [List.any_cons, Bool.or_eq_true] at h
    rcases h with h | h
    · simp [List.countP_cons, h]
    · have := ih h
      simp only [List.countP_cons]
      omega

theorem cache_set_countP (hash : String → String) (s w tr : String) (ts : Int)
    (c : List CacheEntry)
    (hinv : c.countP (fun e => decide (e.key = generate_key hash s w)) ≤ 1) :
    (cache_set hash s w tr ts c).countP
      (fun e => decide (e.key = generate_key hash s w)) = 1 := by
  unfold cache_set
  by_cases hany : c.any (fun e => decide (e.key = generate_key hash s w)) = true
  · rw [if_pos hany, cache_countP_replaced (generate_key hash s w) _ rfl c]
    have := any_true_countP_pos _ _ hany
    omega
  · have hany2 : c.any (fun e => decide (e.key = generate_key hash s w)) = false := by
      simpa using hany
    rw [if_neg (by simp [hany2]), List.countP_append,
      any_false_countP_zero _ _ hany2]
    simp [List.countP_cons]

/-- Claim C4 counterexample: two distinct (sentence, word) pairs whose
delimited concatenations - the strings actually digested by
TranslationCache._generate_key - coincide, so their md5 digests, and hence
their cache keys, coincide as well.  The digest is instantiated with a
concrete function; the equality of the digested messages (first conjunct)
makes the key collision independent of the digest used. -/
theorem C4_key_collision_counterexample :
    keyMessage "a|b" "c" = keyMessage "a" "b|c"
    ∧ generate_key (fun s => s) "a|b" "c" = generate_key (fun s => s) "a" "b|c"
    ∧ ¬ ((("a|b", "c") : String × String) = ("a", "b|c")) := by
  refine ⟨by decide, by decide, by decide⟩

/-- Claim C4, corrected: the cache key is the digest of the UTF-8
concatenation sentence + "|" + word, so it depends only on that
concatenation: any two (sentence, word) pairs - distinct or not - whose
delimited concatenations coincide receive identical keys, and hence the key
does not uniquely determine the (sentence, word) pair. -/
theorem C4_key_determined_by_message (hash : String → String)
    (s1 w1 s2 w2 : String) (h : keyMessage s1 w1 = keyMessage s2 w2) :
    generate_key hash s1 w1 = generate_key hash s2 w2 := by
  unfold generate_key
  rw [h]

/-- Witness for C4_key_determined_by_message at the colliding pairs. -/
theorem C4_key_determined_by_message_witness :
    keyMessage "a|b" "c" = keyMessage "a" "b|c"
    ∧ generate_key (fun s => String.append s "x") "a|b" "c"
        = generate_key (fun s => String.append s "x") "a" "b|c" :=
  ⟨by decide, C4_key_determined_by_message (fun s => String.append s "x")
    "a|b" "c" "a" "b|c" (by decide)⟩

/-- Claim C5: get_eligible_words returns exactly the input words, in input
order, for which no stored word_memory row has suppress_until > now; on
empty input it returns [] and issues no database query. -/
theorem C5_filter_eligible (now : Int) (memory : List WMRow) (words : List String) :
    get_eligible_words now memory words
      = words.filter (fun w => decide (¬ ∃ r ∈ memory, r.word = w ∧ now < r.suppress_until))
    ∧ get_eligible_words now memory [] = []
    ∧ get_eligible_words_queries ([] : List String) = 0 := by
  refine ⟨?_, rfl, rfl⟩
  unfold get_eligible_words
  by_cases hw : words = []
  · subst hw; simp
  · rw [if_neg hw]
    apply List.filter_congr
    intro w hwmem
    rw [decide_eq_decide]
    apply not_congr
    unfold wm_suppressed_query
    simp only [List.mem_map, List.mem_filter, Bool.and_eq_true, decide_eq_true_eq]
    constructor
    · rintro ⟨r, ⟨hrmem, _, hsu⟩, hrw⟩
      exact ⟨r, hrmem, hrw, hsu⟩
    · rintro ⟨r, hrmem, hrw, hsu⟩
      exact ⟨r, ⟨hrmem, by rw [hrw]; exact hwmem, hsu⟩, hrw⟩

/-- Claim C7: a cache get after a set for the same (sentence, word) pair
returns exactly the stored translation; a second set for the same pair
overwrites the earlier entry (last write wins), and - given the PRIMARY KEY
invariant that the table holds at most one row per key - exactly one entry
for the key remains. -/
theorem C7_cache_last_write_wins (hash : String → String) (s w t1 t2 : String)
    (ts1 ts2 : Int) (c : List CacheEntry)
    (hinv : c.countP (fun e => decide (e.key = generate_key hash s w)) ≤ 1) :
    cache_get hash s w (cache_set hash s w t1 ts1 c) = some t1
    ∧ cache_get hash s w (cache_set hash s w t2 ts2 (cache_set hash s w t1 ts1 c)) = some t2
    ∧ (cache_set hash s w t2 ts2 (cache_set hash s w t1 ts1 c)).countP
        (fun e => decide (e.key = generate_key hash s w)) = 1 := by
  refine ⟨cache_get_cache_set hash s w t1 ts1 c,
    cache_get_cache_set hash s w t2 ts2 _, ?_⟩
  apply cache_set_countP
  rw [cache_set_countP hash s w t1 ts1 c hinv]

/-- Witness for C7_cache_last_write_wins on a concrete cache. -/
theorem C7_cache_last_write_wins_witness :
    (([] : List CacheEntry).countP
      (fun e => decide (e.key = generate_key (fun s => s) "猫在摇篮里" "猫")) ≤ 1)
    ∧ (cache_get (fun s => s) "猫在摇篮里" "猫"
        (cache_set (fun s => s) "猫在摇篮里" "猫" "cat" 5 []) = some "cat"
      ∧ cache_get (fun s => s) "猫在摇篮里" "猫"
          (cache_set (fun s => s) "猫在摇篮里" "猫" "kitty" 9
            (cache_set (fun s => s) "猫在摇篮里" "猫" "cat" 5 [])) = some "kitty"
      ∧ (cache_set (fun s => s) "猫在摇篮里" "猫" "kitty" 9
          (cache_set (fun s => s) "猫在摇篮里" "猫" "cat" 5 [])).countP
          (fun e => decide (e.key = generate_key (fun s => s) "猫在摇篮里" "猫")) = 1) :=
  ⟨by decide, C7_cache_last_write_wins (fun s => s) "猫在摇篮里" "猫" "cat" "kitty"
    5 9 [] (by decide)⟩

/-! Helper lemmas about the word_memory upsert. -/

theorem wm_find_replaced (word : String) (ent : WMRow) (hk : ent.word = word)
    (m : List WMRow) (h : m.any (fun r => decide (r.word = word)) = true) :
    (m.map (fun r => if r.word = word then ent else r)).find?
      (fun r => decide (r.word = word)) = some ent := by
  induction m with
  | nil => simp at h
  | cons r t ih =>
    by_cases hr : r.word = word
    · simp only [List.map_cons, if_pos hr]
      rw [List.find?_cons_of_pos _ (by simp [hk])]
    · simp only [List.any_cons, Bool.or_eq_true] at h
      have h2 : t.any (fun r => decide (r.word = word)) = true := by
        rcases h with h | h
        · exact absurd (of_decide_eq_true h) hr
        · exact h
      simp only [List.map_cons, if_neg hr]
      rw [List.find?_cons_of_neg _ (by simp [hr]), ih h2]

theorem wm_find_upsert (word : String) (level : Nat) (su : Int) (m : List WMRow) :
    (wm_upsert word level su m).find? (fun r => decide (r.word = word))
      = some { word := word, level := level, suppress_until := su } := by
  unfold wm_upsert
  by_cases hany : m.any (fun r => decide (r.word = word)) = true
  · rw [if_pos hany, wm_find_replaced word _ rfl m hany]
  · have hany2 : m.any (fun r => decide (r.word = word)) = false := by
      simpa using hany
    rw [if_neg (by simp [hany2]),
      find_append_of_none _ _ _ (any_false_find_none _ _ hany2)]
    rw [List.find?_cons_of_pos _ (by simp)]

theorem storedLevel_wm_upsert (word : String) (level : Nat) (su : Int)
    (m : List WMRow) : storedLevel word (wm_upsert word level su m) = level := by
  unfold storedLevel
  rw [wm_find_upsert]
  rfl

theorem storedSuppressUntil_wm_upsert (word : String) (level : Nat) (su : Int)
    (m : List WMRow) :
    storedSuppressUntil word (wm_upsert word level su m) = some su := by
  unfold storedSuppressUntil
  rw [wm_find_upsert]
  rfl

theorem mark_easy_eq (word : String) (now : Int) (memory : List WMRow)
    (hw : word ≠ "") :
    mark_word_as_easy (some word) now memory
      = (MarkEasyOutcome.success word (storedLevel word memory + 1)
           ((storedLevel word memory + 1) ^ 2),
         wm_upsert word (storedLevel word memory + 1)
           (now + (((storedLevel word memory + 1) ^ 2 : Nat) : Int) * (24 * 60 * 60))
           memory) := by
  simp only [mark_word_as_easy, mark_easy_core]
  rw [if_neg hw]

/-- Claim C3: mark_word_as_easy reads the stored level (0 if absent) and
writes level+1 with suppress_until = now + (level+1)^2 * 86400, returning
the new level and day count; a consecutive second call on the same word
returns level+2 with day count (level+2)^2, so from an absent row the calls
produce levels 1, 2, 3, ... and suppress days 1, 4, 9, ...; given a
non-decreasing clock, the stored suppress_until strictly increases on every
call. -/
theorem C3_mark_easy_schedule (word : String) (now1 now2 : Int)
    (memory : List WMRow) (hw : word ≠ "") (hmono : now1 ≤ now2) :
    (mark_word_as_easy (some word) now1 memory).1
      = MarkEasyOutcome.success word (storedLevel word memory + 1)
          ((storedLevel word memory + 1) ^ 2)
    ∧ storedLevel word (mark_word_as_easy (some word) now1 memory).2
        = storedLevel word memory + 1
    ∧ storedSuppressUntil word (mark_word_as_easy (some word) now1 memory).2
        = some (now1 + (((storedLevel word memory + 1) ^ 2 : Nat) : Int) * 86400)
    ∧ (mark_word_as_easy (some word) now2
          (mark_word_as_easy (some word) now1 memory).2).1
        = MarkEasyOutcome.success word (storedLevel word memory + 2)
            ((storedLevel word memory + 2) ^ 2)
    ∧ storedSuppressUntil word (mark_word_as_easy (some word) now2
          (mark_word_as_easy (some word) now1 memory).2).2
        = some (now2 + (((storedLevel word memory + 2) ^ 2 : Nat) : Int) * 86400)
    ∧ (storedSuppressUntil word (mark_word_as_easy (some word) now1 memory).2).getD 0
        < (storedSuppressUntil word (mark_word_as_easy (some word) now2
            (mark_word_as_easy (some word) now1 memory).2).2).getD 0 := by
  have h1 := mark_easy_eq word now1 memory hw
  have hL1 : storedLevel word (mark_word_as_easy (some word) now1 memory).2
      = storedLevel word memory + 1 := by
    rw [h1]
    exact storedLevel_wm_upsert _ _ _ _
  have h2 := mark_easy_eq word now2 (mark_word_as_easy (some word) now1 memory).2 hw
  rw [hL1] at h2
  have hplus : storedLevel word memory + 1 + 1 = storedLevel word memory + 2 := by omega
  rw [hplus] at h2
  have hsec : (24 * 60 * 60 : Int) = 86400 := by norm_num
  have hpow : ((storedLevel word memory + 1) ^ 2 : Nat)
      < (storedLevel word memory + 2) ^ 2 := by nlinarith
  refine ⟨by rw [h1], hL1, ?_, by rw [h2], ?_, ?_⟩
  · rw [h1, storedSuppressUntil_wm_upsert, hsec]
  · rw [h2, storedSuppressUntil_wm_upsert, hsec]
  · rw [h2, h1, storedSuppressUntil_wm_upsert, storedSuppressUntil_wm_upsert]
    simp only [Option.getD_some]
    have hcast : (((storedLevel word memory + 1) ^ 2 : Nat) : Int)
        < (((storedLevel word memory + 2) ^ 2 : Nat) : Int) := by
      exact_mod_cast hpow
    have hpos : (0 : Int) < 24 * 60 * 60 := by norm_num
    exact add_lt_add_of_le_of_lt hmono (mul_lt_mul_of_pos_right hcast hpos)

/-- Witness for C3_mark_easy_schedule: marking 猫 easy twice from an empty
word_memory at times 0 and 5. -/
theorem C3_mark_easy_schedule_witness :
    (("猫" : String) ≠ "" ∧ (0 : Int) ≤ 5)
    ∧ ((mark_word_as_easy (some "猫") 0 []).1
        = MarkEasyOutcome.success "猫" (storedLevel "猫" [] + 1)
            ((storedLevel "猫" [] + 1) ^ 2)
      ∧ storedLevel "猫" (mark_word_as_easy (some "猫") 0 []).2
          = storedLevel "猫" [] + 1
      ∧ storedSuppressUntil "猫" (mark_word_as_easy (some "猫") 0 []).2
          = some (0 + (((storedLevel "猫" [] + 1) ^ 2 : Nat) : Int) * 86400)
      ∧ (mark_word_as_easy (some "猫") 5 (mark_word_as_easy (some "猫") 0 []).2).1
          = MarkEasyOutcome.success "猫" (storedLevel "猫" [] + 2)
              ((storedLevel "猫" [] + 2) ^ 2)
      ∧ storedSuppressUntil "猫" (mark_word_as_easy (some "猫") 5
            (mark_word_as_easy (some "猫") 0 []).2).2
          = some (5 + (((storedLevel "猫" [] + 2) ^ 2 : Nat) : Int) * 86400)
      ∧ (storedSuppressUntil "猫" (mark_word_as_easy (some "猫") 0 []).2).getD 0
          < (storedSuppressUntil "猫" (mark_word_as_easy (some "猫") 5
              (mark_word_as_easy (some "猫") 0 []).2).2).getD 0) :=
  ⟨⟨by decide, by decide⟩,
    C3_mark_easy_schedule "猫" 0 5 [] (by decide) (by decide)⟩

/-! Rate limiter lemmas. -/

theorem filter_not_dropWhile {α : Type} (p : α → Bool) (l : List α) :
    (l.dropWhile p).filter (fun a => !(p a)) = l.filter (fun a => !(p a)) := by
  induction l with
  | nil => rfl
  | cons a t ih =>
    rw [List.dropWhile_cons]
    by_cases ha : p a = true
    · rw [if_pos ha, ih, List.filter_cons]
      simp [ha]
    · have ha2 : p a = false := by simpa using ha
      rw [if_neg (by simp [ha2])]

theorem wait_result_cases (count period now : Int) (polls : List Bool)
    (appendTime : Int) (ts : List Int) :
    wait_for_rate_limit count period now polls appendTime ts
        = (RLResult.cancelled, pruneTimestamps now period ts)
    ∨ (wait_for_rate_limit count period now polls appendTime ts).1
        = RLResult.granted := by
  unfold wait_for_rate_limit
  by_cases h0 : count ≤ 0
  · rw [if_pos h0]; right; rfl
  · rw [if_neg h0]
    by_cases hlen : count ≤ ((pruneTimestamps now period ts).length : Int)
    · rw [if_pos hlen]
      by_cases hwait : 0 < (pruneTimestamps now period ts).headD 0 + period - now
      · rw [if_pos hwait]
        by_cases hpoll : polls.any (fun b => b) = true
        · rw [if_pos hpoll]; left; rfl
        · rw [if_neg hpoll]; right; rfl
      · rw [if_neg hwait]; right; rfl
    · rw [if_neg hlen]; right; rfl

theorem wait_cancelled_snd (count period now : Int) (polls : List Bool)
    (appendTime : Int) (ts : List Int)
    (hcancel : (wait_for_rate_limit count period now polls appendTime ts).1
      = RLResult.cancelled) :
    (wait_for_rate_limit count period now polls appendTime ts).2
      = pruneTimestamps now period ts := by
  rcases wait_result_cases count period now polls appendTime ts with h | h
  · rw [h]
  · rw [h] at hcancel
    exact absurd hcancel (by simp)

/-- Claim C2: a cancelled acquire appends nothing - the deque after the
attempt is a final segment of the deque before it, every removed entry being
an expired timestamp (strictly older than now - period) - and hence the
window in the sense of the specification (the timestamps within the trailing
period, liveWindow) is exactly as it was before the attempt.  Only a
successful admission appends a timestamp. -/
theorem C2_cancelled_acquire (count period now : Int) (polls : List Bool)
    (appendTime : Int) (ts : List Int)
    (hcancel : (wait_for_rate_limit count period now polls appendTime ts).1
      = RLResult.cancelled) :
    (∃ dropped, (∀ t ∈ dropped, t < now - period)
      ∧ dropped ++ (wait_for_rate_limit count period now polls appendTime ts).2 = ts)
    ∧ liveWindow now period (wait_for_rate_limit count period now polls appendTime ts).2
        = liveWindow now period ts := by
  have hsnd := wait_cancelled_snd count period now polls appendTime ts hcancel
  constructor
  · refine ⟨ts.takeWhile (fun t => decide (t < now - period)), ?_, ?_⟩
    · intro t ht
      have := List.mem_takeWhile_imp ht
      simpa using this
    · rw [hsnd]
      unfold pruneTimestamps
      exact List.takeWhile_append_dropWhile _ _
  · rw [hsnd]
    unfold liveWindow pruneTimestamps
    exact filter_not_dropWhile _ ts

/-- Witness for C2_cancelled_acquire: capacity 1, period 60, one live
timestamp 50 at time 100, and a disconnect observed during the wait. -/
theorem C2_cancelled_acquire_witness :
    (wait_for_rate_limit 1 60 100 [true] 101 [50]).1 = RLResult.cancelled
    ∧ ((∃ dropped, (∀ t ∈ dropped, t < (100 : Int) - 60)
        ∧ dropped ++ (wait_for_rate_limit 1 60 100 [true] 101 [50]).2 = [50])
      ∧ liveWindow 100 60 (wait_for_rate_limit 1 60 100 [true] 101 [50]).2
          = liveWindow 100 60 [50]) :=
  ⟨by decide, C2_cancelled_acquire 1 60 100 [true] 101 [50] (by decide)⟩

/-! Lock-discipline lemmas over the _wait_for_rate_limit event trace. -/

theorem mem_map_pruneTs_nonlock {l : List Int} {e : RLEvent}
    (h : e ∈ l.map RLEvent.pruneTs) : isLockEvent e = false := by
  rcases List.mem_map.mp h with ⟨t, _, rfl⟩
  rfl

theorem mem_checkSleep_nonlock {l : List Bool} {e : RLEvent}
    (h : e ∈ l.flatMap
      (fun _ => [RLEvent.checkDisconnect false, RLEvent.sleepHundredMs])) :
    isLockEvent e = false := by
  rcases List.mem_flatMap.mp h with ⟨b, _, hmem⟩
  rcases List.mem_cons.mp hmem with rfl | hmem2
  · rfl
  · rcases List.mem_cons.mp hmem2 with rfl | hmem3
    · rfl
    · simp at hmem3

theorem trace_tail_nonlock (count period now : Int) (polls : List Bool)
    (appendTime : Int) (ts1 : List Int) (e : RLEvent)
    (he : e ∈ (if count ≤ (ts1.length : Int) then
          if 0 < ts1.headD 0 + period - now then
            ((polls.takeWhile (fun b => b = false)).flatMap
               (fun _ => [RLEvent.checkDisconnect false, RLEvent.sleepHundredMs])) ++
            (if polls.any (fun b => b) then
               [RLEvent.checkDisconnect true, RLEvent.raiseCancelled]
             else [RLEvent.appendTs appendTime])
          else [RLEvent.appendTs appendTime]
        else [RLEvent.appendTs appendTime])) : isLockEvent e = false := by
  split at he
  · split at he
    · rcases List.mem_append.mp he with h | h
      · exact mem_checkSleep_nonlock h
      · split at h
        · rcases List.mem_cons.mp h with rfl | h2
          · rfl
          · rcases List.mem_cons.mp h2 with rfl | h3
            · rfl
            · simp at h3
        · rcases List.mem_cons.mp h with rfl | h2
          · rfl
          · simp at h2
    · rcases List.mem_cons.mp he with rfl | h2
      · rfl
      · simp at h2
  · rcases List.mem_cons.mp he with rfl | h2
    · rfl
    · simp at h2

theorem foldl_lockScanStep_nonlock (body : List RLEvent) (f : Bool)
    (hb : ∀ e ∈ body, isLockEvent e = false) :
    body.foldl lockScanStep (f, true) = (f, true) := by
  induction body with
  | nil => rfl
  | cons e t ih =>
    have he := hb e (List.mem_cons_self e t)
    have ht : ∀ x ∈ t, isLockEvent x = false :=
      fun x hx => hb x (List.mem_cons_of_mem e hx)
    rw [List.foldl_cons]
    have hstep : lockScanStep (f, true) e = (f, true) := by
      cases e <;> simp [lockScanStep, isLockEvent] at he ⊢
    rw [hstep]
    exact ih ht

theorem countP_zero_of_all_false {α : Type} (p : α → Bool) (l : List α)
    (h : ∀ e ∈ l, p e = false) : l.countP p = 0 := by
  induction l with
  | nil => rfl
  | cons a t ih =>
    rw [List.countP_cons, ih (fun x hx => h x (List.mem_cons_of_mem a hx)),
      h a (List.mem_cons_self a t)]
    rfl

theorem nonlock_not_acquire {e : RLEvent} (h : isLockEvent e = false) :
    isLockAcquire e = false := by
  cases e <;> simp [isLockEvent, isLockAcquire] at h ⊢

/-- Claim C9, corrected: in _wait_for_rate_limit every deque access,
disconnect check AND every asyncio.sleep(0.1) of the wait loop happens while
the rate_limit_lock is held - the whole attempt is one critical section (at
most one lock acquisition per attempt), so the wait loop DOES hold the lock
while sleeping and a concurrent acquire is blocked on the lock for the
duration of the wait of another caller. -/
theorem C9_lock_held_throughout (count period now : Int) (polls : List Bool)
    (appendTime : Int) (ts : List Int) :
    eventsOutsideLock (wait_for_rate_limit_trace count period now polls appendTime ts)
      = false
    ∧ (wait_for_rate_limit_trace count period now polls appendTime ts).countP
        isLockAcquire ≤ 1 := by
  unfold wait_for_rate_limit_trace
  by_cases h0 : count ≤ 0
  · rw [if_pos h0]
    exact ⟨rfl, by decide⟩
  · rw [if_neg h0]
    have hb : ∀ e ∈ ((ts.takeWhile (fun t => decide (t < now - period))).map
        RLEvent.pruneTs ++
        (if count ≤ ((ts.dropWhile (fun t => decide (t < now - period))).length : Int) then
          if 0 < (ts.dropWhile (fun t => decide (t < now - period))).headD 0 + period - now then
            ((polls.takeWhile (fun b => b = false)).flatMap
               (fun _ => [RLEvent.checkDisconnect false, RLEvent.sleepHundredMs])) ++
            (if polls.any (fun b => b) then
               [RLEvent.checkDisconnect true, RLEvent.raiseCancelled]
             else [RLEvent.appendTs appendTime])
          else [RLEvent.appendTs appendTime]
        else [RLEvent.appendTs appendTime])), isLockEvent e = false := by
      intro e he
      rcases List.mem_append.mp he with h | h
      · exact mem_map_pruneTs_nonlock h
      · exact trace_tail_nonlock count period now polls appendTime _ e h
    constructor
    · unfold eventsOutsideLock
      rw [List.cons_append, List.foldl_cons, List.foldl_append]
      have hinit : lockScanStep (false, false) RLEvent.lockAcquire = (false, true) := rfl
      rw [hinit, foldl_lockScanStep_nonlock _ false hb]
      rfl
    · rw [List.cons_append, List.countP_cons, List.countP_append,
        countP_zero_of_all_false _ _
          (fun e he => nonlock_not_acquire (hb e he))]
      simp [isLockAcquire]

/-- Claim C9 counterexample: with capacity 1, period 60, one live timestamp
50 at time 100 and one negative disconnect poll, the attempt waits, and the
asyncio.sleep(0.1) of the wait loop is executed while the rate_limit_lock is
held (the async-with block encloses the whole wait loop), contradicting the
claim that the lock is not held while sleeping. -/
theorem C9_sleep_under_lock_counterexample :
    sleepsWhileLockHeld (wait_for_rate_limit_trace 1 60 100 [false] 101 [50]) = true
    ∧ (wait_for_rate_limit 1 60 100 [false] 101 [50]).1 = RLResult.granted := by
  refine ⟨by decide, by decide⟩

/-! Orchestrator lemmas. -/

theorem wait_granted_of_no_cancel (count period now : Int) (polls : List Bool)
    (appendTime : Int) (ts : List Int)
    (hpoll : polls.any (fun b => b) = false) :
    (wait_for_rate_limit count period now polls appendTime ts).1
      = RLResult.granted := by
  unfold wait_for_rate_limit
  by_cases h0 : count ≤ 0
  · rw [if_pos h0]
  · rw [if_neg h0]
    by_cases hlen : count ≤ ((pruneTimestamps now period ts).length : Int)
    · rw [if_pos hlen]
      by_cases hwait : 0 < (pruneTimestamps now period ts).headD 0 + period - now
      · rw [if_pos hwait, if_neg (by simp [hpoll])]
      · rw [if_neg hwait]
    · rw [if_neg hlen]

theorem translate_word_selection (env : RunEnv) (s : String) (st : AppState)
    (target : String) (hs : s ≠ "")
    (htgt : weighted_choice env.pick
        (get_eligible_words env.nowElig st.memory (candidatesOf env.tagger s))
      = some target)
    (hne : target ≠ "") :
    translate_word env (some s) st
      = handle_translate_exc (translateSelected env s target
          (setFreq st (increment_word_frequency target st.freq))) := by
  have helig : get_eligible_words env.nowElig st.memory (candidatesOf env.tagger s)
      ≠ [] := by
    intro h
    rw [h] at htgt
    simp [weighted_choice] at htgt
  have hcand : candidatesOf env.tagger s ≠ [] := by
    intro h
    apply helig
    rw [h]
    rfl
  simp only [translate_word, translate_word_inner]
  rw [if_neg hs, if_neg hcand, if_neg helig, htgt]
  simp only [if_neg hne]

/-- Claim C6: in every run of /translate that reaches word selection (a
target word was chosen from a non-empty eligible list), the final frequency
table is exactly the initial one with the chosen word incremented once -
whatever the outcome (cache hit, cache miss, provider failure or
cancellation) - and when the outcome is the cancellation non-response, the
increment stays committed while the translation cache and the word_memory
table are untouched. -/
theorem C6_frequency_incremented_once (env : RunEnv) (s : String) (st : AppState)
    (target : String) (hs : s ≠ "")
    (htgt : weighted_choice env.pick
        (get_eligible_words env.nowElig st.memory (candidatesOf env.tagger s))
      = some target)
    (hne : target ≠ "") :
    (translate_word env (some s) st).2.freq
        = increment_word_frequency target st.freq
    ∧ (translate_word env (some s) st).2.memory = st.memory
    ∧ ((translate_word env (some s) st).1 = TranslateOutcome.noResponse →
        (translate_word env (some s) st).2.cache = st.cache) := by
  rw [translate_word_selection env s st target hs htgt hne]
  unfold translateSelected
  by_cases hc : cachedTruthy (cache_get env.hash s target
      (setFreq st (increment_word_frequency target st.freq)).cache) = true
  · rw [if_pos hc]
    refine ⟨rfl, rfl, ?_⟩
    intro h
    simp [handle_translate_exc] at h
  · rw [if_neg (by simp [hc])]
    rcases hpt : provider_translate env.count env.period env.nowRL env.polls
        env.appendTime env.disc2 env.reply
        (setFreq st (increment_word_frequency target st.freq)).timestamps
      with ⟨res, ts2⟩
    cases res with
    | error e =>
      cases e with
      | http status detail =>
        refine ⟨rfl, rfl, ?_⟩
        intro h
        simp [handle_translate_exc] at h
      | clientDisconnected =>
        exact ⟨rfl, rfl, fun _ => rfl⟩
      | providerError msg =>
        refine ⟨rfl, rfl, ?_⟩
        intro h
        simp [handle_translate_exc] at h
    | ok t =>
      refine ⟨rfl, rfl, ?_⟩
      intro h
      simp [handle_translate_exc] at h

/-- Witness for C6_frequency_incremented_once: a run whose wait is cancelled
by a disconnect poll; the frequency increment is committed, the other tables
untouched. -/
theorem C6_frequency_incremented_once_witness :
    (("猫在睡觉" : String) ≠ ""
      ∧ weighted_choice 0 (get_eligible_words 0 ([] : List WMRow)
          (candidatesOf (fun _ => [("猫", "n")]) "猫在睡觉")) = some "猫"
      ∧ ("猫" : String) ≠ "")
    ∧ ((translate_word
          ⟨fun s => s, fun _ => [("猫", "n")], 0, 0, 100, 101, 0, 1, 60,
            [true], false, ProviderReply.content "喵"⟩
          (some "猫在睡觉") ⟨[], [], [], [50]⟩).2.freq
        = increment_word_frequency "猫" ([] : List (String × Nat))
      ∧ (translate_word
          ⟨fun s => s, fun _ => [("猫", "n")], 0, 0, 100, 101, 0, 1, 60,
            [true], false, ProviderReply.content "喵"⟩
          (some "猫在睡觉") ⟨[], [], [], [50]⟩).2.memory = ([] : List WMRow)
      ∧ ((translate_word
          ⟨fun s => s, fun _ => [("猫", "n")], 0, 0, 100, 101, 0, 1, 60,
            [true], false, ProviderReply.content "喵"⟩
          (some "猫在睡觉") ⟨[], [], [], [50]⟩).1 = TranslateOutcome.noResponse →
        (translate_word
          ⟨fun s => s, fun _ => [("猫", "n")], 0, 0, 100, 101, 0, 1, 60,
            [true], false, ProviderReply.content "喵"⟩
          (some "猫在睡觉") ⟨[], [], [], [50]⟩).2.cache = ([] : List CacheEntry))) :=
  ⟨⟨by decide, by decide, by decide⟩,
    C6_frequency_incremented_once
      ⟨fun s => s, fun _ => [("猫", "n")], 0, 0, 100, 101, 0, 1, 60,
        [true], false, ProviderReply.content "喵"⟩
      "猫在睡觉" ⟨[], [], [], [50]⟩ "猫" (by decide) (by decide) (by decide)⟩

theorem translateSelected_content (env : RunEnv) (s target t : String)
    (st1 : AppState)
    (hmiss : cachedTruthy (cache_get env.hash s target st1.cache) = false)
    (hpoll : env.polls.any (fun b => b) = false)
    (hdisc : env.disc2 = false)
    (hreply : env.reply = ProviderReply.content t) :
    ∃ ts2,
      translateSelected env s target st1
        = (if 30 < t.length then
            Except.error (PyExc.providerError (String.append "翻译结果过长:" t),
              setTimestamps st1 ts2)
          else Except.ok (TranslateOutcome.response target t false,
            setCacheTimestamps st1
              (cache_set env.hash s target t env.cacheTs st1.cache) ts2)) := by
  unfold translateSelected
  rw [if_neg (by simp [hmiss])]
  unfold provider_translate
  rcases hw : wait_for_rate_limit env.count env.period env.nowRL env.polls
      env.appendTime st1.timestamps with ⟨r, ts2⟩
  have hr : r = RLResult.granted := by
    have h2 := wait_granted_of_no_cancel env.count env.period env.nowRL env.polls
      env.appendTime st1.timestamps hpoll
    rw [hw] at h2
    exact h2
  subst hr
  refine ⟨ts2, ?_⟩
  rw [hreply, hdisc]
  by_cases hlen : 30 < t.length
  · rw [if_pos hlen]
    simp only [Bool.false_eq_true, if_false]
    rw [if_pos hlen]
  · rw [if_neg hlen]
    simp only [Bool.false_eq_true, if_false]
    rw [if_neg hlen]

/-- Claim C8: on a cache miss with an uncancelled run, a provider reply
whose extracted text exceeds 30 characters makes the translate call fail
(ValueError, surfaced by the orchestrator as the 502 upstream error) and
nothing is written to the cache; a reply of at most 30 characters is
returned as the translation and is written to the cache. -/
theorem C8_overlong_reply_rejected (env : RunEnv) (s : String) (st : AppState)
    (target t : String) (hs : s ≠ "")
    (htgt : weighted_choice env.pick
        (get_eligible_words env.nowElig st.memory (candidatesOf env.tagger s))
      = some target)
    (hne : target ≠ "")
    (hmiss : cachedTruthy (cache_get env.hash s target st.cache) = false)
    (hpoll : env.polls.any (fun b => b) = false)
    (hdisc : env.disc2 = false)
    (hreply : env.reply = ProviderReply.content t) :
    (translate_word env (some s) st).1
      = (if 30 < t.length then
          TranslateOutcome.httpError 502
            (String.append "处理翻译请求时发生错误: " (String.append "翻译结果过长:" t))
        else TranslateOutcome.response target t false)
    ∧ (translate_word env (some s) st).2.cache
      = (if 30 < t.length then st.cache
        else cache_set env.hash s target t env.cacheTs st.cache) := by
  rw [translate_word_selection env s st target hs htgt hne]
  have hmiss2 : cachedTruthy (cache_get env.hash s target
      (setFreq st (increment_word_frequency target st.freq)).cache) = false := hmiss
  rcases translateSelected_content env s target t
      (setFreq st (increment_word_frequency target st.freq)) hmiss2 hpoll hdisc hreply
    with ⟨ts2, heq⟩
  rw [heq]
  by_cases hlen : 30 < t.length
  · rw [if_pos hlen, if_pos hlen, if_pos hlen]
    exact ⟨rfl, rfl⟩
  · rw [if_neg hlen, if_neg hlen, if_neg hlen]
    exact ⟨rfl, rfl⟩

/-- Witness for C8_overlong_reply_rejected: a short reply on a fresh state
is returned and cached. -/
theorem C8_overlong_reply_rejected_witness :
    (("猫在睡觉" : String) ≠ ""
      ∧ weighted_choice 0 (get_eligible_words 0 ([] : List WMRow)
          (candidatesOf (fun _ => [("猫", "n")]) "猫在睡觉")) = some "猫"
      ∧ ("猫" : String) ≠ ""
      ∧ cachedTruthy (cache_get (fun s => s) "猫在睡觉" "猫"
          ([] : List CacheEntry)) = false
      ∧ ([] : List Bool).any (fun b => b) = false
      ∧ false = false
      ∧ ProviderReply.content "小猫" = ProviderReply.content "小猫")
    ∧ ((translate_word
          ⟨fun s => s, fun _ => [("猫", "n")], 0, 0, 0, 0, 7, 0, 60, [],
            false, ProviderReply.content "小猫"⟩
          (some "猫在睡觉") ⟨[], [], [], []⟩).1
        = (if 30 < ("小猫" : String).length then
            TranslateOutcome.httpError 502
              (String.append "处理翻译请求时发生错误: " (String.append "翻译结果过长:" "小猫"))
          else TranslateOutcome.response "猫" "小猫" false)
      ∧ (translate_word
          ⟨fun s => s, fun _ => [("猫", "n")], 0, 0, 0, 0, 7, 0, 60, [],
            false, ProviderReply.content "小猫"⟩
          (some "猫在睡觉") ⟨[], [], [], []⟩).2.cache
        = (if 30 < ("小猫" : String).length then ([] : List CacheEntry)
          else cache_set (fun s => s) "猫在睡觉" "猫" "小猫" 7 [])) :=
  ⟨⟨by decide, by decide, by decide, by decide, by decide, rfl, rfl⟩,
    C8_overlong_reply_rejected
      ⟨fun s => s, fun _ => [("猫", "n")], 0, 0, 0, 0, 7, 0, 60, [],
        false, ProviderReply.content "小猫"⟩
      "猫在睡觉" ⟨[], [], [], []⟩ "猫" "小猫" (by decide) (by decide) (by decide)
      (by decide) (by decide) rfl rfl⟩

/-- Claim C10: when the cached translation for the selected (sentence, word)
pair is the empty string, the /translate flow treats the lookup as a miss -
the "if cached:" truthiness test conflates an empty stored translation with
absence - so it proceeds to the rate limiter and the provider and, on a
successful reply, overwrites the existing entry and answers from_cache =
false. -/
theorem C10_empty_cached_translation_is_miss (env : RunEnv) (s : String)
    (st : AppState) (target t : String) (hs : s ≠ "")
    (htgt : weighted_choice env.pick
        (get_eligible_words env.nowElig st.memory (candidatesOf env.tagger s))
      = some target)
    (hne : target ≠ "")
    (hcached : cache_get env.hash s target st.cache = some "")
    (hpoll : env.polls.any (fun b => b) = false)
    (hdisc : env.disc2 = false)
    (hreply : env.reply = ProviderReply.content t)
    (hlen : t.length ≤ 30) :
    (translate_word env (some s) st).1 = TranslateOutcome.response target t false
    ∧ cache_get env.hash s target (translate_word env (some s) st).2.cache
        = some t := by
  rw [translate_word_selection env s st target hs htgt hne]
  have hmiss2 : cachedTruthy (cache_get env.hash s target
      (setFreq st (increment_word_frequency target st.freq)).cache) = false := by
    show cachedTruthy (cache_get env.hash s target st.cache) = false
    rw [hcached]
    rfl
  rcases translateSelected_content env s target t
      (setFreq st (increment_word_frequency target st.freq)) hmiss2 hpoll hdisc hreply
    with ⟨ts2, heq⟩
  rw [heq, if_neg (by omega : ¬ 30 < t.length)]
  exact ⟨rfl, cache_get_cache_set env.hash s target t env.cacheTs _⟩

/-- Witness for C10_empty_cached_translation_is_miss: the cache already
holds the empty translation for the pair, the provider answers 小猫, and the
entry is overwritten. -/
theorem C10_empty_cached_translation_is_miss_witness :
    (("猫在睡觉" : String) ≠ ""
      ∧ weighted_choice 0 (get_eligible_words 0 ([] : List WMRow)
          (candidatesOf (fun _ => [("猫", "n")]) "猫在睡觉")) = some "猫"
      ∧ ("猫" : String) ≠ ""
      ∧ cache_get (fun s => s) "猫在睡觉" "猫"
          [⟨"猫在睡觉|猫", "猫在睡觉", "猫", "", 3⟩] = some ""
      ∧ ([] : List Bool).any (fun b => b) = false
      ∧ ("小猫" : String).length ≤ 30)
    ∧ ((translate_word
          ⟨fun s => s, fun _ => [("猫", "n")], 0, 0, 0, 0, 7, 0, 60, [],
            false, ProviderReply.content "小猫"⟩
          (some "猫在睡觉")
          ⟨[⟨"猫在睡觉|猫", "猫在睡觉", "猫", "", 3⟩], [], [], []⟩).1
        = TranslateOutcome.response "猫" "小猫" false
      ∧ cache_get (fun s => s) "猫在睡觉" "猫"
          (translate_word
            ⟨fun s => s, fun _ => [("猫", "n")], 0, 0, 0, 0, 7, 0, 60, [],
              false, ProviderReply.content "小猫"⟩
            (some "猫在睡觉")
            ⟨[⟨"猫在睡觉|猫", "猫在睡觉", "猫", "", 3⟩], [], [], []⟩).2.cache
        = some "小猫") :=
  ⟨⟨by decide, by decide, by decide, by decide, by decide, by decide⟩,
    C10_empty_cached_translation_is_miss
      ⟨fun s => s, fun _ => [("猫", "n")], 0, 0, 0, 0, 7, 0, 60, [],
        false, ProviderReply.content "小猫"⟩
      "猫在睡觉" ⟨[⟨"猫在睡觉|猫", "猫在睡觉", "猫", "", 3⟩], [], [], []⟩
      "猫" "小猫" (by decide) (by decide) (by decide) (by decide) (by decide)
      rfl rfl (by decide)⟩

/-- Claim C1, code behaviour at the four failure conditions.  The no-
candidates and all-suppressed conditions do raise distinct HTTPException
404s inside the try block, but the blanket except Exception of
translate_word catches them (fastapi.HTTPException subclasses Exception)
and re-raises HTTPException(502, ...), so BOTH surface to the caller as 502
upstream errors - distinguishable only by the embedded detail text - rather
than as client errors; a provider failure surfaces as the 502 upstream
error and a cancelled request yields no response, as claimed. -/
theorem C1_failure_surfacing :
    (translate_word
        ⟨fun s => s, fun _ => [("的", "uj")], 0, 0, 0, 0, 0, 0, 60, [],
          false, ProviderReply.content "喵"⟩
        (some "这句话") ⟨[], [], [], []⟩).1
      = TranslateOutcome.httpError 502
          "处理翻译请求时发生错误: 404: 句子中未找到可翻译的名词或动词"
    ∧ (translate_word
        ⟨fun s => s, fun _ => [("猫", "n")], 0, 0, 0, 0, 0, 0, 60, [],
          false, ProviderReply.content "喵"⟩
        (some "猫在睡觉") ⟨[], [], [⟨"猫", 1, 1000⟩], []⟩).1
      = TranslateOutcome.httpError 502
          "处理翻译请求时发生错误: 404: 所有候选词均被标记为简单词"
    ∧ (translate_word
        ⟨fun s => s, fun _ => [("猫", "n")], 0, 0, 0, 0, 0, 0, 60, [],
          false, ProviderReply.networkError "ConnectError"⟩
        (some "猫在睡觉") ⟨[], [], [], []⟩).1
      = TranslateOutcome.httpError 502 "处理翻译请求时发生错误: ConnectError"
    ∧ (translate_word
        ⟨fun s => s, fun _ => [("猫", "n")], 0, 0, 100, 101, 0, 1, 60, [true],
          false, ProviderReply.content "喵"⟩
        (some "猫在睡觉") ⟨[], [], [], [50]⟩).1
      = TranslateOutcome.noResponse := by
  refine ⟨by decide, by decide, by decide, by decide⟩
